import Mathlib

/-!
Verification of the message-processing pipeline in `src/app/processor.py`
(repository finsite/stock-backtest-technical).

The pipeline is embedded shallowly:

* Python dict values are modelled by `Value` (strings and exact rationals;
  the only numeric literal in the program is the constant `0.85`, on which
  no arithmetic is performed, so exact rationals are faithful).
* A Python `dict[str, Any]` is modelled as an association list `Msg`,
  looked up with `List.lookup` (first binding wins, as in a dict where each
  key occurs once; the program only ever reads keys).
* Exceptions (`ValueError` from the validator, `KeyError` from the dict
  subscripts in the simulator) are modelled with `Except ProcError`.
* To reason about mutation of caller-visible dicts, a second, heap-passing
  embedding is given: dicts live in a `Heap` (a list of `Msg` indexed by
  `Ref`), every operation returns the final heap, and a dict literal is an
  allocation of a fresh reference.  Each heap-level function mirrors the
  source line by line; a correspondence lemma ties it to the pure embedding.
-/

/-- Values stored in a message mapping: strings and exact numbers. -/
inductive Value where
  | str : String → Value
  | num : Rat → Value
deriving DecidableEq, Repr

/-- A Python `dict[str, Any]` as an association list from keys to values. -/
abbrev Msg := List (String × Value)

/-- Errors the pipeline can raise: `ValueError("Invalid message format")`
from the validator, and `KeyError(field)` from a dict subscript. -/
inductive ProcError where
  | validationError
  | keyError (field : String)
deriving DecidableEq, Repr

/-- Modelled from the spec: the external schema predicate
`validate_message_schema` lives in `app/utils/validate_data.py`, which is
not part of the sources here.  Per the spec it checks "does this mapping
contain the required fields with acceptable types", the required fields
being at minimum `symbol` (string) and `timestamp` (string or number). -/
def validate_message_schema (m : Msg) : Bool :=
  (match m.lookup "symbol" with
    | some (Value.str _) => true
    | _ => false)
  &&
  (match m.lookup "timestamp" with
    | some (Value.str _) => true
    | some (Value.num _) => true
    | _ => false)

/-- Embedding of `validate_input_message`: raise `ValueError` when the
schema predicate rejects the message, otherwise return the same mapping. -/
def validate_input_message (m : Msg) : Except ProcError Msg :=
  if validate_message_schema m then Except.ok m
  else Except.error ProcError.validationError

/-- The literal `0.85` as an exact rational (`85/100` in lowest terms). -/
def confidenceConst : Rat := Rat.mk' 17 20

/-- The fixed-shape result dict literal built by `simulate_technical_strategy`,
as a function of the two copied values. -/
def signalResult (s t : Value) : Msg :=
  [("symbol", s),
   ("timestamp", t),
   ("strategy", Value.str "SMA_Crossover"),
   ("signal", Value.str "buy"),
   ("confidence", Value.num confidenceConst)]

example : confidenceConst = 85/100 := by
  rw [confidenceConst, Rat.mk'_eq_divInt, Rat.divInt_eq_div]
  norm_num

/-- Embedding of `simulate_technical_strategy`: subscript the input dict at
`"symbol"` and `"timestamp"` (raising `KeyError` when absent, as Python
subscripting does) and build the placeholder result literal. -/
def simulate_technical_strategy (m : Msg) : Except ProcError Msg :=
  match m.lookup "symbol" with
  | none => Except.error (ProcError.keyError "symbol")
  | some s =>
    match m.lookup "timestamp" with
    | none => Except.error (ProcError.keyError "timestamp")
    | some t => Except.ok (signalResult s t)

/-- Embedding of `process_message`: validate, then simulate on the validated
message; an exception raised by the validator propagates to the caller. -/
def process_message (m : Msg) : Except ProcError Msg :=
  match validate_input_message m with
  | Except.error e => Except.error e
  | Except.ok validated => simulate_technical_strategy validated

/-- The concrete valid message used in the spec's exactness test. -/
def aaplMsg : Msg :=
  [("symbol", Value.str "AAPL"),
   ("timestamp", Value.str "2024-01-01T00:00:00Z")]

/-- The exact output the spec promises for `aaplMsg`. -/
def aaplResult : Msg :=
  signalResult (Value.str "AAPL") (Value.str "2024-01-01T00:00:00Z")

deriving instance DecidableEq for Except

example : process_message aaplMsg = Except.ok aaplResult := by decide

example : process_message [] = Except.error ProcError.validationError := by decide

/-!
Heap-passing embedding.  Python dicts are mutable objects reached through
references; to settle the claims about mutation, the same three functions
are re-embedded with an explicit heap.  A `Heap` is the list of all
allocated dicts, a `Ref` is an index into it.  Reading a key
(`message["symbol"]`, `message.get(...)`) does not touch the heap; a dict
display (`result = { ... }`) allocates a fresh dict.  Every function
returns the final heap alongside its result, so a caller can observe what
happened to every dict it already held.
-/

/-- The store of all allocated dicts; a reference is an index into it. -/
abbrev Heap := List Msg

/-- A reference to a dict in the heap. -/
abbrev Ref := Nat

/-- Dereference: the dict a reference points to (an out-of-range reference
dereferences to the empty dict; well-formed programs never build one). -/
def heapGet (h : Heap) (r : Ref) : Msg := h.getD r []

/-- Allocation of a fresh dict, returning the new heap and its reference. -/
def heapAlloc (h : Heap) (m : Msg) : Heap × Ref := (h ++ [m], h.length)

/-- Heap-level `validate_input_message`: reads the dict to run the schema
predicate and either raises or returns the same reference; it allocates
nothing and writes nothing. -/
def validateH (h : Heap) (r : Ref) : (Except ProcError Ref) × Heap :=
  (if validate_message_schema (heapGet h r) then Except.ok r
   else Except.error ProcError.validationError, h)

/-- Heap-level `simulate_technical_strategy`: reads `symbol` and
`timestamp` out of the input dict, then allocates the result dict literal.
The input dict is only read, never written. -/
def simulateH (h : Heap) (r : Ref) : (Except ProcError Ref) × Heap :=
  match (heapGet h r).lookup "symbol" with
  | none => (Except.error (ProcError.keyError "symbol"), h)
  | some s =>
    match (heapGet h r).lookup "timestamp" with
    | none => (Except.error (ProcError.keyError "timestamp"), h)
    | some t =>
      let p := heapAlloc h (signalResult s t)
      (Except.ok p.2, p.1)

/-- Heap-level `process_message`: validator then simulator on the validated
reference, exceptions propagating. -/
def processH (h : Heap) (r : Ref) : (Except ProcError Ref) × Heap :=
  match validateH h r with
  | (Except.error e, h1) => (Except.error e, h1)
  | (Except.ok validated, h1) => simulateH h1 validated

/-- Observable outcome of a heap-level call: the error, or the contents of
the dict the returned reference points to in the final heap. -/
def processContent (h : Heap) (r : Ref) : Except ProcError Msg :=
  match processH h r with
  | (Except.ok r2, h2) => Except.ok (heapGet h2 r2)
  | (Except.error e, _) => Except.error e

/-- Reading below the length of the left list ignores an appended tail. -/
theorem getD_append_lt (l l2 : List Msg) (n : Nat) (hn : n < l.length) :
    (l ++ l2).getD n [] = l.getD n [] := by
  induction l generalizing n with
  | nil => simp at hn
  | cons a l ih =>
    cases n with
    | zero => simp
    | succ n =>
      simp only [List.cons_append, List.getD_cons_succ]
      exact ih n (by simpa using hn)

/-- Reading a freshly appended element at the old length returns it. -/
theorem getD_append_self (l : List Msg) (d : Msg) :
    (l ++ [d]).getD l.length [] = d := by
  induction l with
  | nil => simp
  | cons a l ih => simp [ih]

/-- The simulator leaves every previously allocated dict unchanged. -/
theorem simulateH_frame (h : Heap) (r r0 : Ref) (h0 : r0 < h.length) :
    heapGet (simulateH h r).2 r0 = heapGet h r0 := by
  unfold simulateH
  cases hs : (heapGet h r).lookup "symbol" with
  | none => rfl
  | some s =>
    cases ht : (heapGet h r).lookup "timestamp" with
    | none => rfl
    | some t =>
      simp only [heapAlloc, heapGet]
      exact getD_append_lt h _ r0 h0

/-- The whole pipeline leaves every previously allocated dict unchanged. -/
theorem processH_frame (h : Heap) (r r0 : Ref) (h0 : r0 < h.length) :
    heapGet (processH h r).2 r0 = heapGet h r0 := by
  unfold processH validateH
  by_cases hv : validate_message_schema (heapGet h r)
  · simp only [hv, if_pos]
    exact simulateH_frame h r r0 h0
  · simp [hv]

/-- A message passing the schema predicate has a string `symbol` and some
`timestamp` value. -/
theorem schema_fields (m : Msg) (h : validate_message_schema m = true) :
    (∃ s, m.lookup "symbol" = some (Value.str s)) ∧
    ∃ t, m.lookup "timestamp" = some t := by
  unfold validate_message_schema at h
  rw [Bool.and_eq_true] at h
  obtain ⟨h1, h2⟩ := h
  constructor
  · cases hs : m.lookup "symbol" with
    | none => rw [hs] at h1; simp at h1
    | some v =>
      cases v with
      | str s => exact ⟨s, rfl⟩
      | num q => rw [hs] at h1; simp at h1
  · cases ht : m.lookup "timestamp" with
    | none => rw [ht] at h2; simp at h2
    | some v => exact ⟨v, rfl⟩

/-- The heap-level pipeline computes exactly the pure pipeline applied to
the contents of the input dict. -/
theorem processContent_eq_pure (h : Heap) (r : Ref) :
    processContent h r = process_message (heapGet h r) := by
  unfold processContent processH validateH process_message validate_input_message
  by_cases hv : validate_message_schema (heapGet h r)
  · simp only [hv, if_pos]
    unfold simulateH simulate_technical_strategy
    cases hs : (heapGet h r).lookup "symbol" with
    | none => rfl
    | some s =>
      cases ht : (heapGet h r).lookup "timestamp" with
      | none => rfl
      | some t =>
        simp only [heapAlloc, heapGet]
        rw [getD_append_self]
  · simp [hv]

/-- A valid message carrying an extra, schema-unspecified key. -/
def extraMsg : Msg :=
  [("symbol", Value.str "AAPL"),
   ("timestamp", Value.str "2024-01-01T00:00:00Z"),
   ("note", Value.str "extra field the schema never mentions")]

/-- C1: on any raw message the schema predicate accepts whose `symbol` is
"AAPL" and whose `timestamp` is "2024-01-01T00:00:00Z", `process_message`
returns exactly the mapping {symbol: "AAPL", timestamp:
"2024-01-01T00:00:00Z", strategy: "SMA_Crossover", signal: "buy",
confidence: 0.85}; and in general `simulate_technical_strategy` copies
`symbol` and `timestamp` verbatim and fills the other three fields with
those fixed constants. -/
theorem process_aapl_exact_and_simulate_copies :
    (∀ m : Msg, validate_message_schema m = true →
      m.lookup "symbol" = some (Value.str "AAPL") →
      m.lookup "timestamp" = some (Value.str "2024-01-01T00:00:00Z") →
      process_message m = Except.ok aaplResult) ∧
    (∀ (m : Msg) (s t : Value),
      m.lookup "symbol" = some s → m.lookup "timestamp" = some t →
      simulate_technical_strategy m = Except.ok (signalResult s t)) := by
  constructor
  · intro m hv hs ht
    unfold process_message validate_input_message
    simp only [hv, if_pos]
    unfold simulate_technical_strategy
    rw [hs, ht]
    rfl
  · intro m s t hs ht
    unfold simulate_technical_strategy
    rw [hs, ht]

/-- Witness for C1 at the concrete AAPL message. -/
theorem process_aapl_exact_witness :
    process_message aaplMsg = Except.ok aaplResult :=
  process_aapl_exact_and_simulate_copies.1 aaplMsg (by decide) (by decide)
    (by decide)

/-- C2: whenever the schema predicate rejects a message the validator, and
hence the whole pipeline, fails with the validation error, unchanged; and
the (spec-modelled) predicate rejects every message missing `symbol` or
`timestamp`. -/
theorem validate_rejects_invalid :
    (∀ m : Msg, validate_message_schema m = false →
      validate_input_message m = Except.error ProcError.validationError ∧
      process_message m = Except.error ProcError.validationError) ∧
    (∀ m : Msg, m.lookup "symbol" = none ∨ m.lookup "timestamp" = none →
      validate_message_schema m = false) := by
  constructor
  · intro m hv
    unfold process_message validate_input_message
    refine ⟨?_, ?_⟩ <;> simp [hv]
  · intro m hm
    unfold validate_message_schema
    rcases hm with hs | ht
    · rw [hs]
      rfl
    · rw [ht]
      simp

/-- Witness for C2 at the empty message, which lacks both fields. -/
theorem validate_rejects_invalid_witness :
    validate_input_message ([] : Msg) = Except.error ProcError.validationError ∧
    process_message ([] : Msg) = Except.error ProcError.validationError :=
  validate_rejects_invalid.1 [] (by decide)

/-- C3: `process_message` is exactly the validator followed by the
simulator: it equals their monadic composition, returns the simulator's
result when validation succeeds, and returns the validation failure itself
when validation fails — no other branch exists. -/
theorem process_is_validator_then_simulator (m : Msg) :
    process_message m
      = (validate_input_message m).bind simulate_technical_strategy ∧
    (validate_message_schema m = true →
      process_message m = simulate_technical_strategy m) ∧
    (validate_message_schema m = false →
      process_message m = Except.error ProcError.validationError) := by
  refine ⟨?_, ?_, ?_⟩
  · unfold process_message
    cases validate_input_message m <;> rfl
  · intro hv
    unfold process_message validate_input_message
    simp [hv]
  · intro hv
    unfold process_message validate_input_message
    simp [hv]

/-- Witness for C3 at the concrete AAPL message. -/
theorem process_is_validator_then_simulator_witness :
    process_message aaplMsg
      = (validate_input_message aaplMsg).bind simulate_technical_strategy ∧
    process_message aaplMsg = simulate_technical_strategy aaplMsg :=
  ⟨(process_is_validator_then_simulator aaplMsg).1,
   (process_is_validator_then_simulator aaplMsg).2.1 (by decide)⟩

/-- C4: on any message the schema predicate accepts, the validator returns
the very same mapping, with no copying and no transformation. -/
theorem validate_returns_same_mapping (m : Msg)
    (hv : validate_message_schema m = true) :
    validate_input_message m = Except.ok m := by
  unfold validate_input_message
  simp [hv]

/-- Witness for C4 at the concrete AAPL message. -/
theorem validate_returns_same_mapping_witness :
    validate_input_message aaplMsg = Except.ok aaplMsg :=
  validate_returns_same_mapping aaplMsg (by decide)

/-- C5: the simulator fails with a missing-field (KeyError) error — not a
swallowed one — on any input lacking `symbol`, or having `symbol` but
lacking `timestamp`; and under the validator's precondition this error
branch is unreachable. -/
theorem simulate_missing_field_error :
    (∀ m : Msg, m.lookup "symbol" = none →
      simulate_technical_strategy m
        = Except.error (ProcError.keyError "symbol")) ∧
    (∀ (m : Msg) (s : Value), m.lookup "symbol" = some s →
      m.lookup "timestamp" = none →
      simulate_technical_strategy m
        = Except.error (ProcError.keyError "timestamp")) ∧
    (∀ m : Msg, validate_message_schema m = true →
      ∃ r, simulate_technical_strategy m = Except.ok r) := by
  refine ⟨?_, ?_, ?_⟩
  · intro m hs
    unfold simulate_technical_strategy
    rw [hs]
  · intro m s hs ht
    unfold simulate_technical_strategy
    rw [hs, ht]
  · intro m hv
    obtain ⟨⟨s, hs⟩, ⟨t, ht⟩⟩ := schema_fields m hv
    refine ⟨signalResult (Value.str s) t, ?_⟩
    unfold simulate_technical_strategy
    rw [hs, ht]

/-- Witness for C5: the empty message and a message with only `symbol`. -/
theorem simulate_missing_field_error_witness :
    simulate_technical_strategy ([] : Msg)
      = Except.error (ProcError.keyError "symbol") ∧
    simulate_technical_strategy [("symbol", Value.str "AAPL")]
      = Except.error (ProcError.keyError "timestamp") :=
  ⟨simulate_missing_field_error.1 [] (by decide),
   simulate_missing_field_error.2.1 [("symbol", Value.str "AAPL")]
     (Value.str "AAPL") (by decide) (by decide)⟩

/-- C6: whenever the simulator returns a mapping, that mapping has exactly
the five fixed keys, in particular no extra input key is ever copied. -/
theorem simulate_output_exact_keys (m r : Msg)
    (h : simulate_technical_strategy m = Except.ok r) :
    r.map Prod.fst
      = ["symbol", "timestamp", "strategy", "signal", "confidence"] := by
  unfold simulate_technical_strategy at h
  cases hs : m.lookup "symbol" with
  | none => rw [hs] at h; simp at h
  | some s =>
    rw [hs] at h
    cases ht : m.lookup "timestamp" with
    | none => rw [ht] at h; simp at h
    | some t =>
      rw [ht] at h
      injection h with h
      rw [← h]
      rfl

/-- Witness for C6 at a message carrying an extra key. -/
theorem simulate_output_exact_keys_witness :
    aaplResult.map Prod.fst
      = ["symbol", "timestamp", "strategy", "signal", "confidence"] :=
  simulate_output_exact_keys extraMsg aaplResult (by decide)

/-- C7: the simulator never mutates its input dict: after the call, the
input reference dereferences to exactly the mapping it held before. -/
theorem simulate_never_mutates_input (h : Heap) (r : Ref)
    (hr : r < h.length) :
    heapGet (simulateH h r).2 r = heapGet h r :=
  simulateH_frame h r r hr

/-- Witness for C7 on a one-dict heap holding the AAPL message. -/
theorem simulate_never_mutates_input_witness :
    heapGet (simulateH [aaplMsg] 0).2 0 = heapGet [aaplMsg] 0 :=
  simulate_never_mutates_input [aaplMsg] 0 (by decide)

/-- C8: running the pipeline a second time on the same dict, in the heap
the first run produced, yields the identical observable outcome: no state
is retained between calls. -/
theorem process_idempotent (h : Heap) (r : Ref) (hr : r < h.length) :
    processContent (processH h r).2 r = processContent h r := by
  rw [processContent_eq_pure, processContent_eq_pure,
    processH_frame h r r hr]

/-- Witness for C8 on a one-dict heap holding the AAPL message. -/
theorem process_idempotent_witness :
    processContent (processH [aaplMsg] 0).2 0 = processContent [aaplMsg] 0 :=
  process_idempotent [aaplMsg] 0 (by decide)

/-- C9: noninterference — two inputs agreeing on the values at `symbol`
and `timestamp` (both present) make the simulator return equal results,
whatever their other fields hold. -/
theorem simulate_noninterference (m1 m2 : Msg) (s t : Value)
    (h1s : m1.lookup "symbol" = some s)
    (h1t : m1.lookup "timestamp" = some t)
    (h2s : m2.lookup "symbol" = some s)
    (h2t : m2.lookup "timestamp" = some t) :
    simulate_technical_strategy m1 = simulate_technical_strategy m2 := by
  unfold simulate_technical_strategy
  rw [h1s, h1t, h2s, h2t]

/-- Witness for C9: the bare AAPL message and the one with an extra key. -/
theorem simulate_noninterference_witness :
    simulate_technical_strategy aaplMsg = simulate_technical_strategy extraMsg :=
  simulate_noninterference aaplMsg extraMsg (Value.str "AAPL")
    (Value.str "2024-01-01T00:00:00Z") (by decide) (by decide) (by decide)
    (by decide)

/-- C10: the whole pipeline never mutates its argument: every dict already
allocated before the call — the input in particular — holds exactly the
same mapping afterwards, on the success path and on the error path alike,
and the validator leaves the heap untouched as well. -/
theorem pipeline_never_mutates_argument (h : Heap) (r r0 : Ref)
    (h0 : r0 < h.length) :
    heapGet (processH h r).2 r0 = heapGet h r0 ∧
    heapGet (validateH h r).2 r0 = heapGet h r0 :=
  ⟨processH_frame h r r0 h0, rfl⟩

/-- Witness for C10 on the error path: a heap holding one empty dict. -/
theorem pipeline_never_mutates_argument_witness :
    heapGet (processH [([] : Msg)] 0).2 0 = heapGet [([] : Msg)] 0 ∧
    heapGet (validateH [([] : Msg)] 0).2 0 = heapGet [([] : Msg)] 0 :=
  pipeline_never_mutates_argument [[]] 0 0 (by decide)
